import Mathlib

/-!
Verification development for the estudio-de-estilos repository.

The repository has two relevant source units:
* `services/geminiService.ts` — data-URL parsing, the Gemini transport with
  retry (`callGeminiWithRetry`), response processing (`processGeminiResponse`),
  and the two clients `generateDecadeImage` (with fallback-prompt tier) and
  `remixImage`.
* the application component (`App`) — the orchestrator: `handleGenerate`
  (worker pool over a shared queue), `handleRegenerateDecade` (per-item retry)
  and `handleRemixDecade` (per-item remix).

The remote service is abstracted as a transport oracle (a function from the
attempt number, and where relevant the prompt, to a response or an error
message).  Asynchronous orchestration is embedded as an explicit step relation
on a state record; the per-item operations, which the source runs to
settlement, are embedded as functions returning the successive map states they
produce.
-/

/-! ## String utilities (JS `String.prototype.includes` and regex pieces) -/

/-- Does the pattern (first argument) occur at the head of the character list? -/
def startsWithL : List Char → List Char → Bool
  | [], _ => true
  | _ :: _, [] => false
  | p :: ps, c :: cs => p == c && startsWithL ps cs

/-- Does the pattern occur anywhere in the character list? -/
def hasSubL (pat : List Char) : List Char → Bool
  | [] => startsWithL pat []
  | c :: cs => startsWithL pat (c :: cs) || hasSubL pat cs

/-- Embedding of JS `s.includes(pat)`. -/
def strIncludes (s pat : String) : Bool := hasSubL pat.toList s.toList

/-- JS regex `\w` (no unicode flag): `[A-Za-z0-9_]`. -/
def isWordChar (c : Char) : Bool :=
  ('a' ≤ c && c ≤ 'z') || ('A' ≤ c && c ≤ 'Z') || ('0' ≤ c && c ≤ '9') || c == '_'

/-- JS line terminators, which `.` in a regex without the `s` flag never matches. -/
def isLineTerminator (c : Char) : Bool :=
  c == '\n' || c == '\r' || c == Char.ofNat 0x2028 || c == Char.ofNat 0x2029

/-- Longest run of word characters at the head, with the remainder.
Implements the greedy `\w+` piece of the data-URL regex (greediness is exact
here because the following literal `;` is not a word character). -/
def takeWordRun : List Char → List Char × List Char
  | [] => ([], [])
  | c :: cs =>
    if isWordChar c then
      let p := takeWordRun cs
      (c :: p.1, p.2)
    else ([], c :: cs)

/-- Strip a literal (first argument) from the front of the list, or fail. -/
def dropLit : List Char → List Char → Option (List Char)
  | [], s => some s
  | _ :: _, [] => none
  | p :: ps, c :: cs => if p == c then dropLit ps cs else none

/-! ## Image codec helper

Both `generateDecadeImage` and `remixImage` start with
`imageDataUrl.match(/^data:(image\/\w+);base64,(.*)$/)` and throw
`"Formato de URL de dados de imagem inválido. ..."` when the match fails.
`decodeDataUrl` embeds that regex match: the anchored literal prefix
`data:image/`, a non-empty greedy `\w+` run (group 1 is `image/` plus the run),
the literal `;base64,`, and group 2 `(.*)$` — any characters except line
terminators, up to the end of the string.  `encodeDataUrl` embeds the
data-URL composition in `processGeminiResponse`
(`` `data:${mimeType};base64,${data}` ``). -/

structure ImagePayload where
  mediaType : String
  encodedData : String
deriving DecidableEq

def invalidImageFormatMsg : String :=
  "Formato de URL de dados de imagem inválido. Esperado 'data:image/...;base64,...'"

def decodeDataUrl (s : String) : Except String ImagePayload :=
  match dropLit "data:image/".toList s.toList with
  | none => .error invalidImageFormatMsg
  | some afterPre =>
    if (takeWordRun afterPre).1 = [] then .error invalidImageFormatMsg
    else
      match dropLit ";base64,".toList (takeWordRun afterPre).2 with
      | none => .error invalidImageFormatMsg
      | some payload =>
        if payload.any isLineTerminator then .error invalidImageFormatMsg
        else .ok ⟨"image/" ++ String.mk (takeWordRun afterPre).1, String.mk payload⟩

def encodeDataUrl (p : ImagePayload) : String :=
  "data:" ++ p.mediaType ++ ";base64," ++ p.encodedData

/-- Modelled from the spec: the data-model invariant claimed for
`ImagePayload` ("`mediaType` matches `image/*`; `encodedData` is non-empty").
This definition follows the spec's words, to be compared with what
`decodeDataUrl` actually produces. -/
def specImagePayloadInvariant (p : ImagePayload) : Prop :=
  (∃ rest, p.mediaType = "image/" ++ rest) ∧ p.encodedData ≠ ""

/-! ## Gemini service: response processing and retry -/

structure InlineData where
  mimeType : String
  data : String
deriving DecidableEq

/-- One content part of a response; the source only ever reads `part.inlineData`. -/
structure RespPart where
  inlineData : Option InlineData
deriving DecidableEq

/-- Abstraction of `GenerateContentResponse`: the source reads
`response.candidates?.[0]?.content?.parts` (embedded as `parts`, empty when any
link of the optional chain is absent) and the SDK text accessor `response.text`. -/
structure GenResponse where
  parts : List RespPart
  text : Option String
deriving DecidableEq

/-- JS `textResponse || 'Nenhuma resposta de texto recebida.'`: the default is
used when the text is absent or empty (empty strings are falsy). -/
def textOrDefault : Option String → String
  | some s => if s = "" then "Nenhuma resposta de texto recebida." else s
  | none => "Nenhuma resposta de texto recebida."

/-- The fixed prefix of the error thrown by `processGeminiResponse`, which is
also the substring `generateDecadeImage` tests for to detect it. -/
def noImagePhrase : String := "O modelo de IA respondeu com texto em vez de uma imagem"

def noImageMsg (t : Option String) : String :=
  noImagePhrase ++ ": \"" ++ textOrDefault t ++ "\""

def processGeminiResponse (response : GenResponse) : Except String String :=
  match response.parts.find? (fun part => part.inlineData.isSome) with
  | some part =>
    match part.inlineData with
    | some d => .ok ("data:" ++ d.mimeType ++ ";base64," ++ d.data)
    | none => .error (noImageMsg response.text)
  | none => .error (noImageMsg response.text)

/-- The transient-server-error classification in `callGeminiWithRetry`:
`errorMessage.includes('"code":500') || errorMessage.includes('INTERNAL')`. -/
def isInternalError (errorMessage : String) : Bool :=
  strIncludes errorMessage "\"code\":500" || strIncludes errorMessage "INTERNAL"

def maxRetries : Nat := 3

def initialDelay : Nat := 1000

instance instDecEqExceptS {α β : Type} [DecidableEq α] [DecidableEq β] :
    DecidableEq (Except α β)
  | .error a, .error b =>
    if h : a = b then .isTrue (congrArg Except.error h)
    else .isFalse (fun hh => h (Except.error.inj hh))
  | .error _, .ok _ => .isFalse (fun h => Except.noConfusion h)
  | .ok _, .error _ => .isFalse (fun h => Except.noConfusion h)
  | .ok a, .ok b =>
    if h : a = b then .isTrue (congrArg Except.ok h)
    else .isFalse (fun hh => h (Except.ok.inj hh))

/-- Trace of one `callGeminiWithRetry` invocation: the final outcome, how many
transport attempts were made, and the backoff delays (ms) that were awaited. -/
structure RetryTrace where
  outcome : Except String GenResponse
  attemptsMade : Nat
  delays : List Nat
deriving DecidableEq

/-- The `for (let attempt = 1; attempt <= maxRetries; attempt++)` loop of
`callGeminiWithRetry`, with the transport abstracted as a map from attempt
number to response-or-error.  The fuel argument is `maxRetries - attempt + 1`;
the fuel-0 case is the unreachable throw after the loop. -/
def callRetryGo (transport : Nat → Except String GenResponse) :
    Nat → Nat → RetryTrace
  | _, 0 => ⟨.error "A chamada à API Gemini falhou após todas as tentativas.", 0, []⟩
  | attempt, fuel + 1 =>
    match transport attempt with
    | .ok r => ⟨.ok r, 1, []⟩
    | .error msg =>
      if isInternalError msg && decide (attempt < maxRetries) then
        let rest := callRetryGo transport (attempt + 1) fuel
        ⟨rest.outcome, rest.attemptsMade + 1, initialDelay * 2 ^ (attempt - 1) :: rest.delays⟩
      else ⟨.error msg, 1, []⟩

def callGeminiWithRetry (transport : Nat → Except String GenResponse) : RetryTrace :=
  callRetryGo transport 1 maxRetries

/-! ## Generation and remix clients -/

/-- One retry-wrapped transport call followed by response processing, as both
clients perform it (`callGeminiWithRetry` then `processGeminiResponse`).  The
oracle maps a prompt and an attempt number to the remote outcome. -/
def attemptOnce (transport : String → Nat → Except String GenResponse)
    (prompt : String) : Except String String :=
  match (callGeminiWithRetry (transport prompt)).outcome with
  | .ok r => processGeminiResponse r
  | .error m => .error m

/-- Trace of one client call: outcome (data URL or error message) and the
prompts sent, one entry per underlying retry-wrapped attempt-group. -/
structure GenTrace where
  outcome : Except String String
  promptsSent : List String
deriving DecidableEq

def getFallbackPrompt (hairstyle gender : String) : String :=
  "Crie uma fotografia da pessoa nesta imagem com um penteado " ++ gender ++
    " moderno " ++ hairstyle ++
    ". A fotografia deve mostrar claramente o penteado e ter um aspeto autêntico e de alta qualidade."

/-- Embedding of `generateDecadeImage`: data-URL guard, primary attempt, the
no-image classification (`errorMessage.includes(...)`), the JS-falsy guard
`!hairstyle || !gender` on the fallback inputs, the single fallback attempt,
and the two wrapping error messages. -/
def generateDecadeImage (transport : String → Nat → Except String GenResponse)
    (imageDataUrl prompt hairstyle gender : String) : GenTrace :=
  match decodeDataUrl imageDataUrl with
  | .error _ => ⟨.error invalidImageFormatMsg, []⟩
  | .ok _ =>
    match attemptOnce transport prompt with
    | .ok url => ⟨.ok url, [prompt]⟩
    | .error msg =>
      if strIncludes msg noImagePhrase then
        if hairstyle = "" || gender = "" then ⟨.error msg, [prompt]⟩
        else
          match attemptOnce transport (getFallbackPrompt hairstyle gender) with
          | .ok url => ⟨.ok url, [prompt, getFallbackPrompt hairstyle gender]⟩
          | .error fbMsg =>
            ⟨.error ("O modelo de IA falhou com os prompts original e de recurso. Último erro: " ++ fbMsg),
             [prompt, getFallbackPrompt hairstyle gender]⟩
      else
        ⟨.error ("O modelo de IA não conseguiu gerar uma imagem. Detalhes: " ++ msg), [prompt]⟩

/-- Embedding of `remixImage`: data-URL guard, one retry-wrapped attempt, any
failure wrapped with the remix-specific message. -/
def remixImage (transport : String → Nat → Except String GenResponse)
    (imageDataUrl prompt : String) : GenTrace :=
  match decodeDataUrl imageDataUrl with
  | .error _ => ⟨.error invalidImageFormatMsg, []⟩
  | .ok _ =>
    match attemptOnce transport prompt with
    | .ok url => ⟨.ok url, [prompt]⟩
    | .error msg =>
      ⟨.error ("O modelo de IA falhou ao modificar a imagem. Detalhes: " ++ msg), [prompt]⟩

/-! ## Orchestrator data model (the `GeneratedImage` record of the App) -/

inductive ImageStatus where
  | pending
  | done
  | error
deriving DecidableEq

/-- The per-label record `{ status, url?, error? }` of the App. -/
structure GeneratedImage where
  status : ImageStatus
  url : Option String := none
  error : Option String := none
deriving DecidableEq

/-- Functional update of the `Record<string, GeneratedImage>` state, embedding
`setGeneratedImages(prev => ({ ...prev, [label]: v }))`. -/
def mapUpdate (m : String → Option GeneratedImage) (k : String) (v : GeneratedImage) :
    String → Option GeneratedImage :=
  fun x => if x = k then some v else m x

/-- JS `generatedImages[label]?.status`. -/
def statusOf : Option GeneratedImage → Option ImageStatus
  | some g => some g.status
  | none => none

/-- The settlement of one `generateDecadeImage` call as written in the
try/catch of `processHairstyle` and of `handleRegenerateDecade`:
`{ status: 'done', url }` on success, `{ status: 'error', error }` on failure. -/
def genSettle : Except String String → GeneratedImage
  | .ok resultUrl => ⟨.done, some resultUrl, none⟩
  | .error e => ⟨.error, none, some e⟩

/-- The settlement of one `remixImage` call in `handleRemixDecade`: on failure
the previous source image is kept in `url` next to the error message. -/
def remixSettleItem (sourceImage : String) : Except String String → GeneratedImage
  | .ok u => ⟨.done, some u, none⟩
  | .error e => ⟨.error, some sourceImage, some e⟩

/-- `initialImages`: every label of the run set to `{ status: 'pending' }`. -/
def initItems (labels : List String) : String → Option GeneratedImage :=
  labels.foldl (fun m h => mapUpdate m h ⟨.pending, none, none⟩) (fun _ => none)

/-! ## The worker pool of `handleGenerate`

`handleGenerate` builds a queue of all labels and starts `concurrencyLimit`
workers; each worker loops `shift`-one-label / run `processHairstyle` / repeat,
exiting when the queue is empty.  JS runs this single-threaded with suspension
at each `await`, so the run is embedded as a step relation: a worker is `idle`
(at the top of its loop), `busy h` (its `generateDecadeImage` call for label
`h` is in flight) or `done` (its loop exited).  The outcome oracle `result`
maps a label to the settlement of its generation call; the `attempted` field
is a ghost log of settled labels. -/

inductive WStat where
  | idle
  | busy (label : String)
  | done
deriving DecidableEq

def workerLabel : WStat → Option String
  | .busy h => some h
  | _ => none

/-- Labels whose generation calls are currently in flight in the pool. -/
def busyList (ws : List WStat) : List String := ws.filterMap workerLabel

structure RunState where
  queue : List String
  workers : List WStat
  items : String → Option GeneratedImage
  attempted : List String

def runInit (labels : List String) (n : Nat) : RunState :=
  ⟨labels, List.replicate n .idle, initItems labels, []⟩

inductive RunStep (result : String → Except String String) : RunState → RunState → Prop where
  | dequeue (s : RunState) (i : Nat) (h : String) (rest : List String) :
      s.workers.get? i = some .idle → s.queue = h :: rest →
      RunStep result s { s with queue := rest, workers := s.workers.set i (.busy h) }
  | settle (s : RunState) (i : Nat) (h : String) :
      s.workers.get? i = some (.busy h) →
      RunStep result s
        { s with workers := s.workers.set i .idle,
                 items := mapUpdate s.items h (genSettle (result h)),
                 attempted := s.attempted ++ [h] }
  | finish (s : RunState) (i : Nat) :
      s.workers.get? i = some .idle → s.queue = [] →
      RunStep result s { s with workers := s.workers.set i .done }

def RunReach (result : String → Except String String) (labels : List String)
    (n : Nat) (s : RunState) : Prop :=
  Relation.ReflTransGen (RunStep result) (runInit labels n) s

/-! ## Per-item operations `handleRegenerateDecade` and `handleRemixDecade`

Each operation, run to settlement, is embedded as a function returning the
successive map states it writes (`states`, starting with the unchanged input
map), plus the generation-client invocations (`genLabels`) and remix-client
invocations (`remixCalls`, source image and instruction) it issues. -/

structure OpTrace where
  states : List (String → Option GeneratedImage)
  genLabels : List String
  remixCalls : List (String × String)

/-- Embedding of `handleRegenerateDecade label`: guard on the uploaded image
and selected gender, the `Pending` no-op guard, the reset to
`{ status: 'pending' }`, and the settlement of the single generation call. -/
def handleRegenerateDecadeOp (uploadedImage selectedGender : Option String)
    (result : Except String String) (m : String → Option GeneratedImage)
    (h : String) : OpTrace :=
  if uploadedImage.isNone || selectedGender.isNone then ⟨[m], [], []⟩
  else if statusOf (m h) = some .pending then ⟨[m], [], []⟩
  else
    let m1 := mapUpdate m h ⟨.pending, none, none⟩
    ⟨[m, m1, mapUpdate m1 h (genSettle result)], [h], []⟩

/-- Embedding of `handleRemixDecade label instr`: `sourceImage` is the item's
current `url`; JS-falsy guards `!sourceImage || !prompt`, the `Pending` no-op
guard, the reset `{ ...prev, status: 'pending' }` which keeps the previous
fields, the remix call on the existing image, and its settlement. -/
def handleRemixDecadeOp (remixResult : Except String String)
    (m : String → Option GeneratedImage) (h instr : String) : OpTrace :=
  match m h with
  | none => ⟨[m], [], []⟩
  | some prev =>
    match prev.url with
    | none => ⟨[m], [], []⟩
    | some src =>
      if src = "" || instr = "" then ⟨[m], [], []⟩
      else if prev.status = .pending then ⟨[m], [], []⟩
      else
        let m1 := mapUpdate m h { prev with status := .pending }
        ⟨[m, m1, mapUpdate m1 h (remixSettleItem src remixResult)], [], [(src, instr)]⟩

/-! ## Combined system: pool plus user-initiated one-off calls

For the concurrency claim the run is extended with the user-initiated
`handleRegenerateDecade` and `handleRemixDecade` calls, which the source issues
outside the pool: `solo` lists the one-off calls currently in flight.  Their
start and settle steps are the phase boundaries of the per-item operations
above; they never touch the queue or the workers. -/

inductive SoloCall where
  | retryCall (label : String)
  | remixCall (label source instr : String)
deriving DecidableEq

structure FullState where
  queue : List String
  workers : List WStat
  items : String → Option GeneratedImage
  solo : List SoloCall

def fullInit (labels : List String) (n : Nat) : FullState :=
  ⟨labels, List.replicate n .idle, initItems labels, []⟩

inductive FullStep (result rresult : String → Except String String) :
    FullState → FullState → Prop where
  | dequeue (s : FullState) (i : Nat) (h : String) (rest : List String) :
      s.workers.get? i = some .idle → s.queue = h :: rest →
      FullStep result rresult s
        { s with queue := rest, workers := s.workers.set i (.busy h) }
  | settle (s : FullState) (i : Nat) (h : String) :
      s.workers.get? i = some (.busy h) →
      FullStep result rresult s
        { s with workers := s.workers.set i .idle,
                 items := mapUpdate s.items h (genSettle (result h)) }
  | finish (s : FullState) (i : Nat) :
      s.workers.get? i = some .idle → s.queue = [] →
      FullStep result rresult s { s with workers := s.workers.set i .done }
  | retryStart (s : FullState) (h : String) :
      statusOf (s.items h) ≠ some .pending →
      FullStep result rresult s
        { s with items := mapUpdate s.items h ⟨.pending, none, none⟩,
                 solo := .retryCall h :: s.solo }
  | retrySettle (s : FullState) (pre post : List SoloCall) (h : String) :
      s.solo = pre ++ SoloCall.retryCall h :: post →
      FullStep result rresult s
        { s with items := mapUpdate s.items h (genSettle (result h)),
                 solo := pre ++ post }
  | remixStart (s : FullState) (h : String) (prev : GeneratedImage) (src instr : String) :
      s.items h = some prev → prev.url = some src → src ≠ "" → instr ≠ "" →
      prev.status ≠ .pending →
      FullStep result rresult s
        { s with items := mapUpdate s.items h { prev with status := .pending },
                 solo := .remixCall h src instr :: s.solo }
  | remixSettle (s : FullState) (pre post : List SoloCall) (h src instr : String) :
      s.solo = pre ++ SoloCall.remixCall h src instr :: post →
      FullStep result rresult s
        { s with items := mapUpdate s.items h (remixSettleItem src (rresult h)),
                 solo := pre ++ post }

def FullReach (result rresult : String → Except String String)
    (labels : List String) (n : Nat) (s : FullState) : Prop :=
  Relation.ReflTransGen (FullStep result rresult) (fullInit labels n) s

/-! ## Per-item reachable states, for the WorkItem invariant claim -/

/-- Modelled from the spec: the claimed WorkItem invariant — "`resultImage`
present iff `Done`, or stale-but-displayed iff `Error` after a prior success;
`errorMessage` present iff `Error`".  The `priorSuccess` flag stands for the
history-dependent "after a prior successful result" qualifier. -/
def specItemInvariant (it : GeneratedImage) (priorSuccess : Bool) : Prop :=
  (it.url.isSome = true ↔ (it.status = .done ∨ (it.status = .error ∧ priorSuccess = true))) ∧
  (it.error.isSome = true ↔ it.status = .error)

/-- States a single label's item can hold at operation settlement: created
`Pending` by a run, settled by its worker, then transformed by any sequence of
completed `handleRegenerateDecade` and `handleRemixDecade` operations. -/
inductive ItemReach : Option GeneratedImage → Prop where
  | start : ItemReach (some ⟨.pending, none, none⟩)
  | runSettle (r : Except String String) :
      ItemReach (some ⟨.pending, none, none⟩) → ItemReach (some (genSettle r))
  | retryStep (uploadedImage selectedGender : Option String)
      (r : Except String String) (m : String → Option GeneratedImage) (h : String) :
      ItemReach (m h) →
      ItemReach (((handleRegenerateDecadeOp uploadedImage selectedGender r m h).states.getLastD m) h)
  | remixStep (r : Except String String) (m : String → Option GeneratedImage)
      (h instr : String) :
      ItemReach (m h) →
      ItemReach (((handleRemixDecadeOp r m h instr).states.getLastD m) h)

/-- The invariant that does hold of settled items: the error message is present
iff the status is Error; a Done item always carries a url; a url is only
carried by Done or Error items (the latter arising from failed remixes, which
retain the prior image). -/
def amendedItemInvariant (it : GeneratedImage) : Prop :=
  (it.error.isSome = true ↔ it.status = .error) ∧
  (it.status = .done → it.url.isSome = true) ∧
  (it.url.isSome = true → it.status = .done ∨ it.status = .error)

/-- The shapes a settled item can take. -/
def reachableItemShape (it : GeneratedImage) : Prop :=
  it = ⟨.pending, none, none⟩ ∨
  (∃ u, it = ⟨.done, some u, none⟩) ∨
  (∃ e, it = ⟨.error, none, some e⟩) ∨
  (∃ u e, it = ⟨.error, some u, some e⟩)

/-! ## Concrete instances used by witnesses -/

def labels3 : List String := ["A", "B", "C"]

def resultEx : String → Except String String :=
  fun l => if l = "B" then .error "falhou" else .ok ("img" ++ l)

/-- A response carrying no image part, only refusal text. -/
def respNoImage : GenResponse := ⟨[], some "recusado"⟩

/-- A response carrying an inline image part. -/
def respWithImage : GenResponse := ⟨[⟨some ⟨"image/png", "Zm9v"⟩⟩], none⟩

/-- A transport for which the primary prompt yields a text-only response and
every other prompt yields an image. -/
def tEx : String → Nat → Except String GenResponse :=
  fun prompt _ => if prompt = "estilo original" then .ok respNoImage else .ok respWithImage

/-- The item map after the concrete three-label run settles. -/
def itemsFinalEx : String → Option GeneratedImage :=
  mapUpdate (mapUpdate (mapUpdate (initItems labels3) "A" (genSettle (resultEx "A")))
    "B" (genSettle (resultEx "B"))) "C" (genSettle (resultEx "C"))

/-- The settled final state of the concrete three-label, two-worker run. -/
def runFinalEx : RunState := ⟨[], [.done, .done], itemsFinalEx, ["A", "B", "C"]⟩

/-- A one-item map: label `A` is `Done` with image `u`. -/
def m0 : String → Option GeneratedImage :=
  mapUpdate (fun _ => none) "A" ⟨.done, some "u", none⟩

/-! # Theorems -/

/-! ## Transport retry primitive (claim C1) -/

theorem callRetryGo_succ (t : Nat → Except String GenResponse) (a f : Nat) :
    callRetryGo t a (f + 1) =
      (match t a with
       | .ok r => ⟨.ok r, 1, []⟩
       | .error msg =>
         if isInternalError msg && decide (a < maxRetries) then
           ⟨(callRetryGo t (a + 1) f).outcome, (callRetryGo t (a + 1) f).attemptsMade + 1,
            initialDelay * 2 ^ (a - 1) :: (callRetryGo t (a + 1) f).delays⟩
         else ⟨.error msg, 1, []⟩) := rfl

/-- Claim C1: `callGeminiWithRetry` makes at most 3 transport attempts; after a
failure of attempt `k` classified as an internal server error with `k < 3` it
waits `1000 * 2 ^ (k-1)` ms (1000 then 2000) and retries; any failure not so
classified, and the failure of the 3rd attempt, propagates immediately with no
further attempt and no further delay.  Stated as a complete characterization
of the retry trace over an arbitrary transport oracle. -/
theorem callGeminiWithRetry_policy (t : Nat → Except String GenResponse) :
    (callGeminiWithRetry t).attemptsMade ≤ 3 ∧
    callGeminiWithRetry t =
      (match t 1 with
       | .ok r => ⟨.ok r, 1, []⟩
       | .error m1 =>
         if isInternalError m1 then
           match t 2 with
           | .ok r => ⟨.ok r, 2, [1000]⟩
           | .error m2 =>
             if isInternalError m2 then
               match t 3 with
               | .ok r => ⟨.ok r, 3, [1000, 2000]⟩
               | .error m3 => ⟨.error m3, 3, [1000, 2000]⟩
             else ⟨.error m2, 2, [1000]⟩
         else ⟨.error m1, 1, []⟩) := by
  have hEq : callGeminiWithRetry t =
      (match t 1 with
       | .ok r => ⟨.ok r, 1, []⟩
       | .error m1 =>
         if isInternalError m1 then
           match t 2 with
           | .ok r => ⟨.ok r, 2, [1000]⟩
           | .error m2 =>
             if isInternalError m2 then
               match t 3 with
               | .ok r => ⟨.ok r, 3, [1000, 2000]⟩
               | .error m3 => ⟨.error m3, 3, [1000, 2000]⟩
             else ⟨.error m2, 2, [1000]⟩
         else ⟨.error m1, 1, []⟩) := by
    show callRetryGo t 1 maxRetries = _
    rw [show maxRetries = 2 + 1 from rfl, callRetryGo_succ,
      show (1 + 1 : Nat) = 2 from rfl, show (2 : Nat) = 1 + 1 from rfl, callRetryGo_succ,
      show (1 + 1 + 1 : Nat) = 2 + 1 from rfl, show (2 + 1 : Nat) = 2 + 1 from rfl,
      callRetryGo_succ]
    rcases t 1 with m1 | r1
    · cases hI1 : isInternalError m1
      · simp [hI1, maxRetries]
      · rcases t 2 with m2 | r2
        · cases hI2 : isInternalError m2
          · simp [hI1, hI2, maxRetries, initialDelay]
          · rcases t 3 with m3 | r3
            · simp [hI1, hI2, maxRetries, initialDelay, callRetryGo]
            · simp [hI1, hI2, maxRetries, initialDelay, callRetryGo]
        · simp [hI1, maxRetries, initialDelay]
    · simp
  refine ⟨?_, hEq⟩
  rw [hEq]
  rcases t 1 with m1 | r1
  · cases hI1 : isInternalError m1
    · simp [hI1]
    · rcases t 2 with m2 | r2
      · cases hI2 : isInternalError m2
        · simp [hI1, hI2]
        · rcases t 3 with m3 | r3 <;> simp [hI1, hI2]
      · simp [hI1]
  · simp

/-! ## Image codec (claims C7 and C8) -/

theorem dropLit_append {p s r : List Char} (h : dropLit p s = some r) : s = p ++ r := by
  induction p generalizing s with
  | nil =>
    simp only [dropLit, Option.some.injEq] at h
    simp [h]
  | cons a ps ih =>
    cases s with
    | nil => simp [dropLit] at h
    | cons c cs =>
      simp only [dropLit] at h
      cases hac : a == c with
      | false => rw [hac] at h; simp at h
      | true =>
        rw [hac] at h
        simp only [if_pos] at h
        have hcs : cs = ps ++ r := ih h
        rw [List.cons_append, hcs, eq_of_beq hac]

theorem takeWordRun_append (s : List Char) :
    (takeWordRun s).1 ++ (takeWordRun s).2 = s := by
  induction s with
  | nil => rfl
  | cons c cs ih =>
    cases h : isWordChar c with
    | true => simp [takeWordRun, h, ih]
    | false => simp [takeWordRun, h]

/-- Claim C7: every string accepted by the data-URL parse round-trips exactly
through re-encoding, and every string the parse rejects fails with the
invalid-image-format error. -/
theorem decodeDataUrl_roundtrip (s : String) :
    (∃ p, decodeDataUrl s = .ok p ∧ encodeDataUrl p = s) ∨
    decodeDataUrl s = .error invalidImageFormatMsg := by
  unfold decodeDataUrl
  split
  next hpre => right; rfl
  next afterPre hpre =>
    split
    next hrun => right; rfl
    next hrun =>
      split
      next hb => right; rfl
      next payload hb =>
        split
        next hlt => right; rfl
        next hlt =>
          left
          refine ⟨⟨"image/" ++ String.mk (takeWordRun afterPre).1, String.mk payload⟩,
            rfl, ?_⟩
          apply String.ext
          have h1 : s.toList = "data:image/".toList ++ afterPre := dropLit_append hpre
          have h2 : (takeWordRun afterPre).1 ++ (takeWordRun afterPre).2 = afterPre :=
            takeWordRun_append afterPre
          have h3 : (takeWordRun afterPre).2 = ";base64,".toList ++ payload :=
            dropLit_append hb
          have h4 : s.toList =
              "data:image/".toList ++
                ((takeWordRun afterPre).1 ++ (";base64,".toList ++ payload)) := by
            rw [← h3, h2]; exact h1
          show ("data:" ++ ("image/" ++ String.mk (takeWordRun afterPre).1) ++ ";base64," ++
              String.mk payload).data = s.data
          have h5 : s.data = s.toList := rfl
          rw [h5, h4]
          simp [String.data_append]

/-- Claim C8 counterexample: the parse accepts an empty base64 payload (the
regex group is `(.*)`), so decode produces an `ImagePayload` whose
`encodedData` is empty, violating the claimed data-model invariant. -/
theorem decodeDataUrl_empty_payload_counterexample :
    decodeDataUrl "data:image/png;base64," = .ok ⟨"image/png", ""⟩ ∧
    ¬ specImagePayloadInvariant ⟨"image/png", ""⟩ := by
  refine ⟨by decide, ?_⟩
  rintro ⟨-, hne⟩
  exact hne rfl

/-- Claim C8 as amended: every `ImagePayload` produced by the data-URL parse
has a media type of the form `image/<w>` with `<w>` a non-empty word-character
run; its `encodedData` may be empty. -/
theorem decodeDataUrl_mediaType_invariant (s : String) (p : ImagePayload)
    (h : decodeDataUrl s = .ok p) :
    ∃ w, p.mediaType = "image/" ++ String.mk w ∧ w ≠ [] ∧ w.all isWordChar := by
  unfold decodeDataUrl at h
  split at h
  · exact absurd h (by simp)
  next afterPre hpre =>
    split at h
    · exact absurd h (by simp)
    next hrun =>
      split at h
      · exact absurd h (by simp)
      next payload hb =>
        split at h
        · exact absurd h (by simp)
        next hlt =>
          refine ⟨(takeWordRun afterPre).1, ?_, hrun, ?_⟩
          · simpa using congrArg ImagePayload.mediaType (Except.ok.inj h).symm
          · clear h hb hlt hrun hpre
            induction afterPre with
            | nil => rfl
            | cons c cs ih =>
              cases hw : isWordChar c with
              | true => simpa [takeWordRun, hw] using ih
              | false => simp [takeWordRun, hw]

theorem decodeDataUrl_mediaType_invariant_witness :
    ∃ w, (ImagePayload.mk "image/png" "AAA").mediaType = "image/" ++ String.mk w ∧
      w ≠ [] ∧ w.all isWordChar :=
  decodeDataUrl_mediaType_invariant "data:image/png;base64,AAA" ⟨"image/png", "AAA"⟩
    (by decide)

/-! ## Generation client fallback policy (claim C2) -/

/-- Claim C2: with a well-formed source image, `generateDecadeImage` returns
the primary attempt-group's image when it succeeds; when the primary fails
with the no-image error and both fallback inputs are non-empty it issues
exactly one fallback attempt-group with the templated conservative prompt,
returning its image on success and failing with the wrapper embedding the
fallback failure's message otherwise; with a missing fallback input the
original no-image error is re-raised unchanged; and any other primary failure
is wrapped and surfaced immediately with no fallback attempt-group. -/
theorem generateDecadeImage_fallback_policy
    (t : String → Nat → Except String GenResponse)
    (img prompt hairstyle gender : String) (p : ImagePayload)
    (hdec : decodeDataUrl img = .ok p) :
    (∀ url, attemptOnce t prompt = .ok url →
        generateDecadeImage t img prompt hairstyle gender = ⟨.ok url, [prompt]⟩) ∧
    (∀ msg, attemptOnce t prompt = .error msg → strIncludes msg noImagePhrase = true →
        hairstyle ≠ "" → gender ≠ "" →
        (∀ url, attemptOnce t (getFallbackPrompt hairstyle gender) = .ok url →
            generateDecadeImage t img prompt hairstyle gender =
              ⟨.ok url, [prompt, getFallbackPrompt hairstyle gender]⟩) ∧
        (∀ m2, attemptOnce t (getFallbackPrompt hairstyle gender) = .error m2 →
            generateDecadeImage t img prompt hairstyle gender =
              ⟨.error ("O modelo de IA falhou com os prompts original e de recurso. Último erro: " ++ m2),
               [prompt, getFallbackPrompt hairstyle gender]⟩)) ∧
    (∀ msg, attemptOnce t prompt = .error msg → strIncludes msg noImagePhrase = true →
        (hairstyle = "" ∨ gender = "") →
        generateDecadeImage t img prompt hairstyle gender = ⟨.error msg, [prompt]⟩) ∧
    (∀ msg, attemptOnce t prompt = .error msg → strIncludes msg noImagePhrase = false →
        generateDecadeImage t img prompt hairstyle gender =
          ⟨.error ("O modelo de IA não conseguiu gerar uma imagem. Detalhes: " ++ msg),
           [prompt]⟩) := by
  have hred : generateDecadeImage t img prompt hairstyle gender =
      (match attemptOnce t prompt with
       | .ok url => ⟨.ok url, [prompt]⟩
       | .error msg =>
         if strIncludes msg noImagePhrase then
           if hairstyle = "" || gender = "" then ⟨.error msg, [prompt]⟩
           else
             match attemptOnce t (getFallbackPrompt hairstyle gender) with
             | .ok url => ⟨.ok url, [prompt, getFallbackPrompt hairstyle gender]⟩
             | .error fbMsg =>
               ⟨.error ("O modelo de IA falhou com os prompts original e de recurso. Último erro: " ++ fbMsg),
                [prompt, getFallbackPrompt hairstyle gender]⟩
         else
           ⟨.error ("O modelo de IA não conseguiu gerar uma imagem. Detalhes: " ++ msg),
            [prompt]⟩) := by
    unfold generateDecadeImage
    rw [hdec]
  refine ⟨?_, ?_, ?_, ?_⟩
  · intro url h
    rw [hred, h]
  · intro msg h hinc hh hg
    constructor
    · intro url h2
      rw [hred, h]
      show (if strIncludes msg noImagePhrase = true then _ else _) = _
      rw [if_pos hinc, if_neg (by simp [hh, hg]), h2]
    · intro m2 h2
      rw [hred, h]
      show (if strIncludes msg noImagePhrase = true then _ else _) = _
      rw [if_pos hinc, if_neg (by simp [hh, hg]), h2]
  · intro msg h hinc hor
    rw [hred, h]
    show (if strIncludes msg noImagePhrase = true then _ else _) = _
    rw [if_pos hinc, if_pos (by rcases hor with h' | h' <;> simp [h'])]
  · intro msg h hinc
    rw [hred, h]
    show (if strIncludes msg noImagePhrase = true then _ else _) = _
    rw [if_neg (by simp [hinc])]

theorem generateDecadeImage_fallback_policy_witness :
    generateDecadeImage tEx "data:image/png;base64,AAA" "estilo original" "X" "masculino" =
      ⟨.ok "data:image/png;base64,Zm9v",
       ["estilo original", getFallbackPrompt "X" "masculino"]⟩ := by
  have h := (generateDecadeImage_fallback_policy tEx "data:image/png;base64,AAA"
    "estilo original" "X" "masculino" ⟨"image/png", "AAA"⟩ (by decide)).2.1
      (noImageMsg (some "recusado")) (by decide) (by decide) (by decide) (by decide)
  exact h.1 "data:image/png;base64,Zm9v" (by decide)

/-! ## Worker pool: run settlement (claim C3) -/

theorem busyList_replicate_idle (n : Nat) : busyList (List.replicate n .idle) = [] := by
  induction n with
  | zero => rfl
  | succ k ih =>
    rw [List.replicate_succ]
    simp only [busyList, List.filterMap_cons, workerLabel]
    simpa [busyList] using ih

theorem busyList_set_busy {ws : List WStat} {i : Nat} (hi : ws.get? i = some .idle)
    (hst : String) :
    (busyList (ws.set i (.busy hst))).Perm (hst :: busyList ws) := by
  induction ws generalizing i with
  | nil => simp at hi
  | cons w t ih =>
    cases i with
    | zero =>
      simp only [List.get?] at hi
      injection hi with hw
      subst hw
      simp [busyList, workerLabel]
    | succ j =>
      simp only [List.get?] at hi
      have ih' := ih hi
      cases w with
      | idle => simpa [busyList, workerLabel] using ih'
      | done => simpa [busyList, workerLabel] using ih'
      | busy b =>
        simp only [List.set, busyList, List.filterMap_cons, workerLabel]
        exact (ih'.cons b).trans (List.Perm.swap hst b _)

theorem busyList_set_idle {ws : List WStat} {i : Nat} {hst : String}
    (hi : ws.get? i = some (.busy hst)) :
    (busyList ws).Perm (hst :: busyList (ws.set i .idle)) := by
  induction ws generalizing i with
  | nil => simp at hi
  | cons w t ih =>
    cases i with
    | zero =>
      simp only [List.get?] at hi
      injection hi with hw
      subst hw
      simp [busyList, workerLabel]
    | succ j =>
      simp only [List.get?] at hi
      have ih' := ih hi
      cases w with
      | idle => simpa [busyList, workerLabel] using ih'
      | done => simpa [busyList, workerLabel] using ih'
      | busy b =>
        simp only [List.set, busyList, List.filterMap_cons, workerLabel]
        exact (ih'.cons b).trans (List.Perm.swap hst b _)

theorem busyList_set_done {ws : List WStat} {i : Nat} (hi : ws.get? i = some .idle) :
    busyList (ws.set i .done) = busyList ws := by
  induction ws generalizing i with
  | nil => simp
  | cons w t ih =>
    cases i with
    | zero =>
      simp only [List.get?] at hi
      injection hi with hw
      subst hw
      simp [busyList, workerLabel]
    | succ j =>
      simp only [List.get?] at hi
      have ih2 := ih hi
      simp only [busyList] at ih2
      cases w <;> simp [busyList, workerLabel, List.set, List.filterMap_cons, ih2]

/-- The inductive invariant of a run: the queue, the in-flight labels and the
settled labels together are a permutation of the label set; a finished worker
certifies the queue is empty; every settled label's item holds its call's
settlement; the pool size is constant. -/
def RunInv (result : String → Except String String) (labels : List String)
    (n : Nat) (s : RunState) : Prop :=
  (s.queue ++ busyList s.workers ++ s.attempted).Perm labels ∧
  (WStat.done ∈ s.workers → s.queue = []) ∧
  (∀ l ∈ s.attempted, s.items l = some (genSettle (result l))) ∧
  s.workers.length = n

theorem runStep_inv {result : String → Except String String} {labels : List String}
    {n : Nat} {s s' : RunState} (hs : RunStep result s s')
    (hinv : RunInv result labels n s) : RunInv result labels n s' := by
  obtain ⟨hperm, hdone, hitems, hlen⟩ := hinv
  cases hs with
  | dequeue i h rest hi hq =>
    refine ⟨?_, ?_, hitems, by simp [hlen]⟩
    · have hperm2 : ((h :: rest) ++ busyList s.workers ++ s.attempted).Perm labels := by
        rw [← hq]; exact hperm
      exact (((busyList_set_busy hi h).append_left rest).append_right s.attempted).trans
        ((List.perm_middle.append_right s.attempted).trans hperm2)
    · intro hd
      rcases List.mem_or_eq_of_mem_set hd with hmem | habs
      · rw [hdone hmem] at hq; exact absurd hq (by simp)
      · exact absurd habs (by simp)
  | settle i h hi =>
    refine ⟨?_, ?_, ?_, by simp [hlen]⟩
    · refine List.perm_iff_count.mpr fun a => ?_
      have h0 := List.perm_iff_count.mp hperm a
      have h1 := List.perm_iff_count.mp (busyList_set_idle hi) a
      simp only [List.count_append, List.count_cons] at h0 h1 ⊢
      by_cases hah : a = h <;> simp [hah] at h0 h1 ⊢ <;> omega
    · intro hd
      rcases List.mem_or_eq_of_mem_set hd with hmem | habs
      · exact hdone hmem
      · exact absurd habs (by simp)
    · intro l hl
      by_cases hlh : l = h
      · subst hlh; simp [mapUpdate]
      · rcases List.mem_append.mp hl with hl' | hl'
        · simpa [mapUpdate, hlh] using hitems l hl'
        · simp at hl'; exact absurd hl' hlh
  | finish i hi hq =>
    refine ⟨?_, fun _ => hq, hitems, by simp [hlen]⟩
    rw [busyList_set_done hi]
    exact hperm

theorem runReach_inv {result : String → Except String String} {labels : List String}
    {n : Nat} {s : RunState} (h : RunReach result labels n s) :
    RunInv result labels n s := by
  induction h with
  | refl =>
    refine ⟨?_, ?_, fun l hl => absurd hl (List.not_mem_nil l), by simp [runInit]⟩
    · simp [runInit, busyList_replicate_idle]
    · intro hd
      have := List.eq_of_mem_replicate (show WStat.done ∈ List.replicate n .idle from hd)
      exact absurd this (by simp)
  | tail _ hbc ih => exact runStep_inv hbc ih

/-- Claim C3: for every run of `handleGenerate` over a label set, when the run
settles (every worker has exited) every label has been dequeued and settled
exactly once — the settled-label log is a permutation of the label set — and
every label's item is `Done` with its call's result or `Error` with its call's
failure message; a failing call is converted into an `Error` item rather than
aborting the other labels. -/
theorem handleGenerate_run_settles (result : String → Except String String)
    (labels : List String) (n : Nat) (s : RunState) (hn : 0 < n)
    (hreach : RunReach result labels n s) (hfin : ∀ w ∈ s.workers, w = WStat.done) :
    s.attempted.Perm labels ∧
    (∀ l ∈ labels,
      (∀ u, result l = .ok u → s.items l = some ⟨.done, some u, none⟩) ∧
      (∀ e, result l = .error e → s.items l = some ⟨.error, none, some e⟩)) := by
  obtain ⟨hperm, hdone, hitems, hlen⟩ := runReach_inv hreach
  have hne : s.workers ≠ [] := by
    intro hw
    rw [hw] at hlen
    simp at hlen
    omega
  obtain ⟨w, hw⟩ := List.exists_mem_of_ne_nil s.workers hne
  have hdmem : WStat.done ∈ s.workers := (hfin w hw) ▸ hw
  have hq : s.queue = [] := hdone hdmem
  have hbl : busyList s.workers = [] :=
    List.filterMap_eq_nil_iff.mpr fun w hw => by rw [hfin w hw]; rfl
  rw [hq, hbl] at hperm
  simp at hperm
  refine ⟨hperm, fun l hl => ?_⟩
  have hset := hitems l (hperm.mem_iff.mpr hl)
  exact ⟨fun u hu => by rw [hu] at hset; exact hset,
    fun e he => by rw [he] at hset; exact hset⟩

theorem handleGenerate_run_settles_witness :
    runFinalEx.attempted.Perm labels3 ∧
    (∀ l ∈ labels3,
      (∀ u, resultEx l = .ok u → runFinalEx.items l = some ⟨.done, some u, none⟩) ∧
      (∀ e, resultEx l = .error e → runFinalEx.items l = some ⟨.error, none, some e⟩)) := by
  refine handleGenerate_run_settles resultEx labels3 2 runFinalEx (by decide) ?_ (by decide)
  refine Relation.ReflTransGen.head (RunStep.dequeue _ 0 "A" ["B", "C"] rfl rfl) ?_
  refine Relation.ReflTransGen.head (RunStep.dequeue _ 1 "B" ["C"] rfl rfl) ?_
  refine Relation.ReflTransGen.head (RunStep.settle _ 0 "A" rfl) ?_
  refine Relation.ReflTransGen.head (RunStep.dequeue _ 0 "C" [] rfl rfl) ?_
  refine Relation.ReflTransGen.head (RunStep.settle _ 1 "B" rfl) ?_
  refine Relation.ReflTransGen.head (RunStep.finish _ 1 rfl rfl) ?_
  refine Relation.ReflTransGen.head (RunStep.settle _ 0 "C" rfl) ?_
  refine Relation.ReflTransGen.head (RunStep.finish _ 0 rfl rfl) ?_
  exact Relation.ReflTransGen.refl

/-! ## Worker pool: concurrency bound (claim C4) -/

theorem fullStep_workers_length {result rresult : String → Except String String}
    {s s' : FullState} (hs : FullStep result rresult s s') :
    s'.workers.length = s.workers.length := by
  cases hs <;> simp

theorem fullReach_workers_length {result rresult : String → Except String String}
    {labels : List String} {n : Nat} {s : FullState}
    (h : FullReach result rresult labels n s) : s.workers.length = n := by
  induction h with
  | refl => simp [fullInit]
  | tail _ hbc ih => rw [fullStep_workers_length hbc, ih]

/-- Claim C4: in every state reachable during a run, at most
`concurrencyLimit` (the pool size, 2 in the source) generation calls issued by
the run's worker pool are in flight; the user-initiated retry and remix calls
are tracked outside the pool (`solo`) and do not count against the bound —
witnessed by a reachable state with a full pool and a concurrent solo call. -/
theorem handleGenerate_concurrency_bound :
    (∀ (result rresult : String → Except String String) (labels : List String)
        (n : Nat) (s : FullState), FullReach result rresult labels n s →
        (busyList s.workers).length ≤ n) ∧
    (∀ result rresult : String → Except String String, ∃ s : FullState,
        FullReach result rresult labels3 2 s ∧
        (busyList s.workers).length = 2 ∧ s.solo ≠ []) := by
  constructor
  · intro result rresult labels n s h
    calc (busyList s.workers).length ≤ s.workers.length := List.length_filterMap_le _ _
      _ = n := fullReach_workers_length h
  · intro result rresult
    have hguard :
        statusOf ((mapUpdate (initItems labels3) "A" (genSettle (result "A"))) "A") ≠
          some .pending := by
      cases hr : result "A" <;> simp [mapUpdate, statusOf, genSettle, hr]
    refine ⟨_, Relation.ReflTransGen.head (FullStep.dequeue _ 0 "A" ["B", "C"] rfl rfl)
      (Relation.ReflTransGen.head (FullStep.settle _ 0 "A" rfl)
      (Relation.ReflTransGen.head (FullStep.dequeue _ 0 "B" ["C"] rfl rfl)
      (Relation.ReflTransGen.head (FullStep.dequeue _ 1 "C" [] rfl rfl)
      (Relation.ReflTransGen.head (FullStep.retryStart _ "A" hguard)
      Relation.ReflTransGen.refl)))), rfl, by simp⟩

theorem handleGenerate_concurrency_bound_witness :
    (busyList (fullInit labels3 2).workers).length ≤ 2 :=
  handleGenerate_concurrency_bound.1 resultEx resultEx labels3 2 (fullInit labels3 2)
    Relation.ReflTransGen.refl

/-! ## Per-item retry (claim C5) -/

/-- Claim C5: with an uploaded image and a selected gender present,
`handleRegenerateDecade` is a no-op when the item is `Pending`; otherwise it
resets exactly that item to `Pending`, issues exactly one generation call for
that label and no remix call, settles only that item to `Done` with the result
or `Error` with the failure message, and leaves every other label's entry
unchanged in every intermediate and final state. -/
theorem handleRegenerateDecade_frame (upl sg : Option String)
    (result : Except String String) (m : String → Option GeneratedImage) (h : String)
    (hu : upl.isSome = true) (hg : sg.isSome = true) :
    (statusOf (m h) = some .pending →
        handleRegenerateDecadeOp upl sg result m h = ⟨[m], [], []⟩) ∧
    (statusOf (m h) ≠ some .pending →
      (handleRegenerateDecadeOp upl sg result m h).states =
        [m, mapUpdate m h ⟨.pending, none, none⟩,
         mapUpdate (mapUpdate m h ⟨.pending, none, none⟩) h (genSettle result)] ∧
      (handleRegenerateDecadeOp upl sg result m h).genLabels = [h] ∧
      (handleRegenerateDecadeOp upl sg result m h).remixCalls = [] ∧
      (∀ mi ∈ (handleRegenerateDecadeOp upl sg result m h).states,
        ∀ l, l ≠ h → mi l = m l) ∧
      (∀ u, result = .ok u →
        (mapUpdate (mapUpdate m h ⟨.pending, none, none⟩) h (genSettle result)) h =
          some ⟨.done, some u, none⟩) ∧
      (∀ e, result = .error e →
        (mapUpdate (mapUpdate m h ⟨.pending, none, none⟩) h (genSettle result)) h =
          some ⟨.error, none, some e⟩)) := by
  obtain ⟨a, rfl⟩ := Option.isSome_iff_exists.mp hu
  obtain ⟨b, rfl⟩ := Option.isSome_iff_exists.mp hg
  constructor
  · intro hp
    simp [handleRegenerateDecadeOp, hp]
  · intro hp
    have hop : handleRegenerateDecadeOp (some a) (some b) result m h =
        ⟨[m, mapUpdate m h ⟨.pending, none, none⟩,
          mapUpdate (mapUpdate m h ⟨.pending, none, none⟩) h (genSettle result)],
         [h], []⟩ := by
      simp [handleRegenerateDecadeOp, hp]
    rw [hop]
    refine ⟨rfl, rfl, rfl, ?_, ?_, ?_⟩
    · intro mi hmi l hl
      simp only [List.mem_cons, List.not_mem_nil, or_false] at hmi
      rcases hmi with rfl | rfl | rfl
      · rfl
      · simp [mapUpdate, hl]
      · simp [mapUpdate, hl]
    · intro u hu2
      subst hu2
      simp [mapUpdate, genSettle]
    · intro e he
      subst he
      simp [mapUpdate, genSettle]

theorem handleRegenerateDecade_frame_witness :
    (handleRegenerateDecadeOp (some "img") (some "masculino") (.ok "nova") m0 "A").genLabels =
      ["A"] :=
  ((handleRegenerateDecade_frame (some "img") (some "masculino") (.ok "nova") m0 "A"
    rfl rfl).2 (by decide)).2.1

/-! ## Per-item remix (claims C6 and C10) -/

/-- Claim C6: `handleRemixDecade` is a no-op when the item has no result image
or is `Pending`; otherwise it resets the item to `Pending` while preserving the
previous fields, issues exactly one remix call with the item's existing result
image and the given instruction, settles only that item, and on failure the
item becomes `Error` while retaining the previous successful image alongside
the failure message; every other label's entry is unchanged throughout. -/
theorem handleRemixDecade_behavior (r : Except String String)
    (m : String → Option GeneratedImage) (h instr : String) :
    (((m h).bind GeneratedImage.url = none ∨ statusOf (m h) = some .pending) →
        handleRemixDecadeOp r m h instr = ⟨[m], [], []⟩) ∧
    (∀ prev src, m h = some prev → prev.url = some src → src ≠ "" → instr ≠ "" →
        prev.status ≠ .pending →
        (handleRemixDecadeOp r m h instr).states =
          [m, mapUpdate m h { prev with status := .pending },
           mapUpdate (mapUpdate m h { prev with status := .pending }) h
             (remixSettleItem src r)] ∧
        (handleRemixDecadeOp r m h instr).remixCalls = [(src, instr)] ∧
        (handleRemixDecadeOp r m h instr).genLabels = [] ∧
        (∀ mi ∈ (handleRemixDecadeOp r m h instr).states, ∀ l, l ≠ h → mi l = m l) ∧
        (∀ u, r = .ok u →
          (mapUpdate (mapUpdate m h { prev with status := .pending }) h
            (remixSettleItem src r)) h = some ⟨.done, some u, none⟩) ∧
        (∀ e, r = .error e →
          (mapUpdate (mapUpdate m h { prev with status := .pending }) h
            (remixSettleItem src r)) h = some ⟨.error, some src, some e⟩)) := by
  constructor
  · intro hor
    rcases hm : m h with _ | prev
    · simp [handleRemixDecadeOp, hm]
    · rcases hu : prev.url with _ | src
      · simp [handleRemixDecadeOp, hm, hu]
      · have hp : prev.status = .pending := by
          rcases hor with h1 | h1
          · rw [hm] at h1; simp [hu] at h1
          · rw [hm] at h1; simpa [statusOf] using h1
        by_cases hse : src = ""
        · simp [handleRemixDecadeOp, hm, hu, hse]
        · by_cases hie : instr = ""
          · simp [handleRemixDecadeOp, hm, hu, hie]
          · simp [handleRemixDecadeOp, hm, hu, hse, hie, hp]
  · intro prev src hm hu hse hie hp
    have hop : handleRemixDecadeOp r m h instr =
        ⟨[m, mapUpdate m h { prev with status := .pending },
          mapUpdate (mapUpdate m h { prev with status := .pending }) h
            (remixSettleItem src r)], [], [(src, instr)]⟩ := by
      simp [handleRemixDecadeOp, hm, hu, hse, hie, hp]
    rw [hop]
    refine ⟨rfl, rfl, rfl, ?_, ?_, ?_⟩
    · intro mi hmi l hl
      simp only [List.mem_cons, List.not_mem_nil, or_false] at hmi
      rcases hmi with rfl | rfl | rfl
      · rfl
      · simp [mapUpdate, hl]
      · simp [mapUpdate, hl]
    · intro u hu2
      subst hu2
      simp [mapUpdate, remixSettleItem]
    · intro e he
      subst he
      simp [mapUpdate, remixSettleItem]

theorem handleRemixDecade_behavior_witness :
    (handleRemixDecadeOp (.error "falha") m0 "A" "mais brilho").remixCalls =
      [("u", "mais brilho")] :=
  ((handleRemixDecade_behavior (.error "falha") m0 "A" "mais brilho").2
    ⟨.done, some "u", none⟩ "u" (by decide) rfl (by decide) (by decide) (by decide)).2.1

/-- Claim C10: on an item that is `Done` with a result image, a remix request
with an empty instruction is a no-op — no remix call is issued and the item
map is unchanged (the JS guard `!prompt` rejects the empty string). -/
theorem handleRemixDecade_empty_instruction (r : Except String String)
    (m : String → Option GeneratedImage) (h : String) (prev : GeneratedImage)
    (src : String) (hm : m h = some prev) (_hst : prev.status = .done)
    (hu : prev.url = some src) :
    handleRemixDecadeOp r m h "" = ⟨[m], [], []⟩ := by
  simp [handleRemixDecadeOp, hm, hu]

theorem handleRemixDecade_empty_instruction_witness :
    handleRemixDecadeOp (.ok "nova") m0 "A" "" = ⟨[m0], [], []⟩ :=
  handleRemixDecade_empty_instruction (.ok "nova") m0 "A" ⟨.done, some "u", none⟩ "u"
    (by decide) rfl rfl

/-! ## WorkItem invariant (claim C9) -/

/-- Claim C9 counterexample: a retry of a previously successful item that
fails settles the item as `Error` with no url — the prior image is discarded —
so the claimed invariant ("url present iff Done, or iff Error following a
prior successful result") is violated by `handleRegenerateDecade`: the input
item satisfies it, the output item (an `Error` following a prior success,
with `url` absent) does not. -/
theorem workItem_invariant_counterexample :
    specItemInvariant ⟨.done, some "u", none⟩ true ∧
    ((handleRegenerateDecadeOp (some "img") (some "masculino") (.error "falha")
        m0 "A").states.getLastD m0) "A" = some ⟨.error, none, some "falha"⟩ ∧
    ¬ specItemInvariant ⟨.error, none, some "falha"⟩ true := by
  refine ⟨by simp [specItemInvariant], by decide, by simp [specItemInvariant]⟩

theorem regen_last_at (upl sg : Option String) (r : Except String String)
    (m : String → Option GeneratedImage) (h : String) :
    ((handleRegenerateDecadeOp upl sg r m h).states.getLastD m) h =
      if upl.isNone || sg.isNone then m h
      else if statusOf (m h) = some .pending then m h
      else some (genSettle r) := by
  by_cases h1 : (upl.isNone || sg.isNone) = true
  · simp [handleRegenerateDecadeOp, h1, List.getLastD]
  · by_cases h2 : statusOf (m h) = some .pending
    · simp [handleRegenerateDecadeOp, h1, h2, List.getLastD]
    · simp [handleRegenerateDecadeOp, h1, h2, List.getLastD, mapUpdate]

theorem remix_last_at (r : Except String String) (m : String → Option GeneratedImage)
    (h instr : String) :
    ((handleRemixDecadeOp r m h instr).states.getLastD m) h =
      (match m h with
       | none => m h
       | some prev =>
         match prev.url with
         | none => m h
         | some src =>
           if src = "" || instr = "" then m h
           else if prev.status = .pending then m h
           else some (remixSettleItem src r)) := by
  rcases hm : m h with _ | prev
  · simp [handleRemixDecadeOp, hm, List.getLastD]
  · rcases hu : prev.url with _ | src
    · simp [handleRemixDecadeOp, hm, hu, List.getLastD]
    · by_cases h1 : (src = "" || instr = "") = true
      · simp [handleRemixDecadeOp, hm, hu, h1, List.getLastD]
      · by_cases h2 : prev.status = .pending
        · simp [handleRemixDecadeOp, hm, hu, h1, h2, List.getLastD]
        · simp [handleRemixDecadeOp, hm, hu, h1, h2, List.getLastD, mapUpdate]

theorem genSettle_shape (r : Except String String) :
    reachableItemShape (genSettle r) := by
  rcases r with e | u
  · exact Or.inr (Or.inr (Or.inl ⟨e, rfl⟩))
  · exact Or.inr (Or.inl ⟨u, rfl⟩)

theorem itemReach_shape {o : Option GeneratedImage} (ho : ItemReach o) :
    ∀ it, o = some it → reachableItemShape it := by
  induction ho with
  | start =>
    intro it hit
    injection hit with h1
    exact Or.inl h1.symm
  | runSettle r _ _ =>
    intro it hit
    injection hit with h1
    exact h1 ▸ genSettle_shape r
  | retryStep upl sg r m h _ ih =>
    intro it hit
    rw [regen_last_at] at hit
    split at hit
    · exact ih it hit
    · split at hit
      · exact ih it hit
      · injection hit with h1
        exact h1 ▸ genSettle_shape r
  | remixStep r m h instr _ ih =>
    intro it hit
    rw [remix_last_at] at hit
    split at hit
    · exact ih it hit
    · split at hit
      · exact ih it hit
      · split at hit
        · exact ih it hit
        · split at hit
          · exact ih it hit
          · injection hit with h1
            rcases r with e | u
            · exact h1 ▸ Or.inr (Or.inr (Or.inr ⟨_, e, rfl⟩))
            · exact h1 ▸ Or.inr (Or.inl ⟨u, rfl⟩)

/-- Claim C9 as amended: at operation settlement every reachable item
satisfies — the error message is present iff the status is `Error`; a `Done`
item always carries a url; a url is only present on a `Done` item or on an
`Error` item (a failed remix, which retains the prior image).  A failed retry
of a previously successful item discards the prior image, so an `Error` item
following a prior success need not carry a url; during an in-flight remix the
reset `Pending` item temporarily retains the previous fields. -/
theorem workItem_invariant_amended (it : GeneratedImage)
    (h : ItemReach (some it)) : amendedItemInvariant it := by
  have hs : reachableItemShape it := itemReach_shape h it rfl
  rcases hs with h1 | ⟨u, h1⟩ | ⟨e, h1⟩ | ⟨u, e, h1⟩ <;> subst h1 <;>
    exact ⟨by simp, by simp, by simp⟩

theorem workItem_invariant_amended_witness :
    amendedItemInvariant ⟨.done, some "u", none⟩ :=
  workItem_invariant_amended ⟨.done, some "u", none⟩
    (ItemReach.runSettle (.ok "u") ItemReach.start)
